import Mathlib

/-!
Shallow embedding of `mclf/curves/curves_over_number_fields.py`
(class `CurveOverNumberField`): the memoizing accessor `semistable_model`,
the delegating `conductor_exponent`, and the abstract `reduction_type`.

Python objects are modelled as follows.

* A Sage field object is a `NumField`: `mathValue` is the mathematical
  identity of the field (`0` encodes the field of rational numbers) and
  `objId` is the Python object identity, so that `is QQ` is structural
  equality with the distinguished value `QQ = ⟨0, 0⟩` while mathematical
  equality compares only `mathValue`.
* A `SemistableModel` handle is opaque; we model it by the `Nat` identity
  of the object, allocated freshly from `World.nextHandleId`, so that
  "identical object" is equality of these numbers.
* The curve's lazily created attribute `_semistable_models` (a Python
  dict from primes to handles) is an `Option` of an association list:
  `none` models the attribute being absent (`hasattr` false).
* The external collaborators (`QQ.valuation(p)`, `SemistableModel(self, vp)`,
  `handle.conductor_exponent()`) are an oracle record `Collaborators`;
  the `Bool` fields tell whether the corresponding constructor succeeds
  or raises.  Every invocation of a constructor collaborator is recorded
  in the `World.log`, so invocation counts and ordering are observable.
* A raised Python exception is `Except.error`; the final state is returned
  alongside so that state on the exceptional paths is observable.
-/

set_option autoImplicit false

namespace MCLF

/-- Model of a Sage number-field object: mathematical value plus Python
object identity.  `mathValue = 0` encodes the field of rational numbers. -/
structure NumField where
  mathValue : Nat
  objId : Nat
deriving DecidableEq, Repr

/-- The singleton Sage object `QQ` (the field of rational numbers). -/
def QQ : NumField := ⟨0, 0⟩

/-- Python exceptions raised by this module or its collaborators. -/
inductive Err where
  | notImplemented (msg : String)
  | collaboratorError (msg : String)
deriving DecidableEq, Repr

/-- One invocation of an external constructor collaborator. -/
inductive Event where
  | valuationCall (p : Nat)
  | builderCall (p : Nat)
deriving DecidableEq, Repr

/-- Opaque `SemistableModel` handle, identified by Python object identity. -/
abbrev Handle := Nat

/-- Lookup in an association list modelling a Python dict
(`p in d.keys()` / `d[p]`). -/
def lookupAssoc : List (Nat × Handle) → Nat → Option Handle
  | [], _ => none
  | (k, v) :: rest, p => if k = p then some v else lookupAssoc rest p

/-- Python dict store `d[p] = h`: replace the binding if the key is
present, append it otherwise. -/
def insertAssoc : List (Nat × Handle) → Nat → Handle → List (Nat × Handle)
  | [], p, h => [(p, h)]
  | (k, v) :: rest, p, h =>
      if k = p then (p, h) :: rest else (k, v) :: insertAssoc rest p h

/-- State of a `CurveOverNumberField` instance: its constant base field
and the lazily created attribute `_semistable_models` (`none` when the
attribute does not exist yet). -/
structure Curve where
  constant_base_field : NumField
  _semistable_models : Option (List (Nat × Handle))
deriving DecidableEq, Repr

/-- The dict the code works with: the stored attribute if it exists,
a fresh empty dict otherwise (`hasattr` branch of the source). -/
def ssModels (c : Curve) : List (Nat × Handle) :=
  match c._semistable_models with
  | some m => m
  | none => []

/-- Oracle for the external collaborators: whether `QQ.valuation(p)`
succeeds, whether `SemistableModel(self, vp)` succeeds, and the value of
`handle.conductor_exponent()`. -/
structure Collaborators where
  valuationOk : Nat → Bool
  builderOk : Nat → Bool
  conductorExp : Handle → Int

/-- Global state: the curve, the fresh-object allocator and the log of
collaborator invocations. -/
structure World where
  curve : Curve
  nextHandleId : Nat
  log : List Event
deriving DecidableEq, Repr

/-- Embedding of `CurveOverNumberField.semistable_model`.  Returns the
result (`ok` handle, or `error` for a raised exception) together with the
final state. -/
def semistable_model (env : Collaborators) (w : World) (p : Nat) :
    Except Err Handle × World :=
  if w.curve.constant_base_field ≠ QQ then
    (Except.error (Err.notImplemented "Semistable reduction is only implemented over Q"), w)
  else
    match lookupAssoc (ssModels w.curve) p with
    | some h => (Except.ok h, w)
    | none =>
      let log1 := w.log ++ [Event.valuationCall p]
      if env.valuationOk p then
        let log2 := log1 ++ [Event.builderCall p]
        if env.builderOk p then
          (Except.ok w.nextHandleId,
            ⟨⟨w.curve.constant_base_field,
              some (insertAssoc (ssModels w.curve) p w.nextHandleId)⟩,
             w.nextHandleId + 1, log2⟩)
        else
          (Except.error (Err.collaboratorError "SemistableModel"),
            ⟨w.curve, w.nextHandleId, log2⟩)
      else
        (Except.error (Err.collaboratorError "valuation"),
          ⟨w.curve, w.nextHandleId, log1⟩)

/-- Embedding of `CurveOverNumberField.reduction_type`: raises
unconditionally and touches no state. -/
def reduction_type (w : World) (_p : Nat) : Except Err Unit × World :=
  (Except.error (Err.notImplemented "Reduction type for general curves is not defined."), w)

/-- Embedding of `CurveOverNumberField.conductor_exponent`: delegates to
`semistable_model` and queries the returned handle. -/
def conductor_exponent (env : Collaborators) (w : World) (p : Nat) :
    Except Err Int × World :=
  match semistable_model env w p with
  | (Except.ok h, w1) => (Except.ok (env.conductorExp h), w1)
  | (Except.error e, w1) => (Except.error e, w1)

/-- Observable cache content of the curve at a key. -/
def cacheLookup (w : World) (p : Nat) : Option Handle :=
  lookupAssoc (ssModels w.curve) p

/-- The set of keys of the cache mapping. -/
def keysFinset (w : World) : Finset Nat :=
  ((ssModels w.curve).map Prod.fst).toFinset

/-- Whether a log event is an invocation of the model builder. -/
def Event.isBuilderCall : Event → Bool
  | Event.builderCall _ => true
  | Event.valuationCall _ => false

/-- Number of `SemistableModel` builder invocations so far. -/
def builderCallCount (w : World) : Nat :=
  (w.log.filter Event.isBuilderCall).length

/-- Run a sequence of `semistable_model` calls, threading the state. -/
def runCalls (env : Collaborators) (w : World) : List Nat → World
  | [] => w
  | p :: ps => runCalls env (semistable_model env w p).2 ps

/-- A fresh curve over the rationals: attribute absent, empty log. -/
def freshWorld (n : Nat) : World := ⟨⟨QQ, none⟩, n, []⟩

/-- Collaborators that always succeed. -/
def envAll : Collaborators := ⟨fun _ => true, fun _ => true, fun h => Int.ofNat h⟩

/-- Collaborators whose valuation constructor always raises. -/
def envValFail : Collaborators := ⟨fun _ => false, fun _ => true, fun _ => 0⟩

/-- A base field that is not mathematically the rationals. -/
def kField : NumField := ⟨1, 1⟩

/-- A field mathematically equal to the rationals but a distinct object. -/
def qqClone : NumField := ⟨0, 1⟩

theorem lookupAssoc_insertAssoc (m : List (Nat × Handle)) (q : Nat) (h : Handle) (p : Nat) :
    lookupAssoc (insertAssoc m q h) p = if q = p then some h else lookupAssoc m p := by
  induction m with
  | nil => simp [insertAssoc, lookupAssoc]
  | cons kv rest ih =>
    obtain ⟨k, v⟩ := kv
    by_cases hk : k = q
    · subst hk
      simp only [insertAssoc, if_pos rfl, lookupAssoc]
      split_ifs <;> simp_all [lookupAssoc]
    · simp only [insertAssoc, if_neg hk, lookupAssoc, ih]
      split_ifs <;> simp_all

theorem lookupAssoc_none_iff (m : List (Nat × Handle)) (p : Nat) :
    lookupAssoc m p = none ↔ p ∉ m.map Prod.fst := by
  induction m with
  | nil => simp [lookupAssoc]
  | cons kv rest ih =>
    obtain ⟨k, v⟩ := kv
    simp only [lookupAssoc, List.map_cons, List.mem_cons]
    split_ifs with hk <;> simp_all [eq_comm]

theorem keys_insertAssoc (m : List (Nat × Handle)) (p : Nat) (h : Handle) :
    ((insertAssoc m p h).map Prod.fst).toFinset = insert p ((m.map Prod.fst).toFinset) := by
  induction m with
  | nil => simp [insertAssoc]
  | cons kv rest ih =>
    obtain ⟨k, v⟩ := kv
    by_cases hk : k = p
    · subst hk
      simp [insertAssoc]
    · simp [insertAssoc, if_neg hk, ih, Finset.Insert.comm]

theorem sm_notQQ (env : Collaborators) (w : World) (p : Nat)
    (hK : w.curve.constant_base_field ≠ QQ) :
    semistable_model env w p =
      (Except.error (Err.notImplemented "Semistable reduction is only implemented over Q"), w) := by
  simp [semistable_model, hK]

theorem sm_hit (env : Collaborators) (w : World) (p : Nat) (h : Handle)
    (hK : w.curve.constant_base_field = QQ)
    (hh : lookupAssoc (ssModels w.curve) p = some h) :
    semistable_model env w p = (Except.ok h, w) := by
  simp [semistable_model, hK, hh]

theorem sm_miss_ok (env : Collaborators) (w : World) (p : Nat)
    (hK : w.curve.constant_base_field = QQ)
    (hmiss : lookupAssoc (ssModels w.curve) p = none)
    (hv : env.valuationOk p = true) (hb : env.builderOk p = true) :
    semistable_model env w p =
      (Except.ok w.nextHandleId,
        ⟨⟨w.curve.constant_base_field,
          some (insertAssoc (ssModels w.curve) p w.nextHandleId)⟩,
         w.nextHandleId + 1,
         w.log ++ [Event.valuationCall p, Event.builderCall p]⟩) := by
  simp [semistable_model, hK, hmiss, hv, hb]

theorem sm_miss_valFail (env : Collaborators) (w : World) (p : Nat)
    (hK : w.curve.constant_base_field = QQ)
    (hmiss : lookupAssoc (ssModels w.curve) p = none)
    (hv : env.valuationOk p = false) :
    semistable_model env w p =
      (Except.error (Err.collaboratorError "valuation"),
        ⟨w.curve, w.nextHandleId, w.log ++ [Event.valuationCall p]⟩) := by
  simp [semistable_model, hK, hmiss, hv]

theorem sm_miss_buildFail (env : Collaborators) (w : World) (p : Nat)
    (hK : w.curve.constant_base_field = QQ)
    (hmiss : lookupAssoc (ssModels w.curve) p = none)
    (hv : env.valuationOk p = true) (hb : env.builderOk p = false) :
    semistable_model env w p =
      (Except.error (Err.collaboratorError "SemistableModel"),
        ⟨w.curve, w.nextHandleId,
         w.log ++ [Event.valuationCall p, Event.builderCall p]⟩) := by
  simp [semistable_model, hK, hmiss, hv, hb]

theorem sm_cases (env : Collaborators) (w : World) (p : Nat) :
    (w.curve.constant_base_field ≠ QQ ∧
       semistable_model env w p =
         (Except.error (Err.notImplemented "Semistable reduction is only implemented over Q"), w))
  ∨ (w.curve.constant_base_field = QQ ∧ ∃ h, lookupAssoc (ssModels w.curve) p = some h ∧
       semistable_model env w p = (Except.ok h, w))
  ∨ (w.curve.constant_base_field = QQ ∧ lookupAssoc (ssModels w.curve) p = none ∧
       env.valuationOk p = false ∧
       semistable_model env w p =
         (Except.error (Err.collaboratorError "valuation"),
           ⟨w.curve, w.nextHandleId, w.log ++ [Event.valuationCall p]⟩))
  ∨ (w.curve.constant_base_field = QQ ∧ lookupAssoc (ssModels w.curve) p = none ∧
       env.valuationOk p = true ∧ env.builderOk p = false ∧
       semistable_model env w p =
         (Except.error (Err.collaboratorError "SemistableModel"),
           ⟨w.curve, w.nextHandleId, w.log ++ [Event.valuationCall p, Event.builderCall p]⟩))
  ∨ (w.curve.constant_base_field = QQ ∧ lookupAssoc (ssModels w.curve) p = none ∧
       env.valuationOk p = true ∧ env.builderOk p = true ∧
       semistable_model env w p =
         (Except.ok w.nextHandleId,
           ⟨⟨w.curve.constant_base_field,
             some (insertAssoc (ssModels w.curve) p w.nextHandleId)⟩,
            w.nextHandleId + 1, w.log ++ [Event.valuationCall p, Event.builderCall p]⟩)) := by
  by_cases hK : w.curve.constant_base_field = QQ
  · cases hh : lookupAssoc (ssModels w.curve) p with
    | some h => exact Or.inr (Or.inl ⟨hK, h, rfl, sm_hit env w p h hK hh⟩)
    | none =>
      cases hv : env.valuationOk p with
      | false =>
        exact Or.inr (Or.inr (Or.inl ⟨hK, rfl, rfl, sm_miss_valFail env w p hK hh hv⟩))
      | true =>
        cases hb : env.builderOk p with
        | false =>
          exact Or.inr (Or.inr (Or.inr (Or.inl
            ⟨hK, rfl, rfl, rfl, sm_miss_buildFail env w p hK hh hv hb⟩)))
        | true =>
          exact Or.inr (Or.inr (Or.inr (Or.inr
            ⟨hK, rfl, rfl, rfl, sm_miss_ok env w p hK hh hv hb⟩)))
  · exact Or.inl ⟨hK, sm_notQQ env w p hK⟩

theorem sm_ok_inv (env : Collaborators) (w : World) (p : Nat) (h : Handle) (w1 : World)
    (hc : semistable_model env w p = (Except.ok h, w1)) :
    w1.curve.constant_base_field = QQ ∧ lookupAssoc (ssModels w1.curve) p = some h := by
  rcases sm_cases env w p with ⟨hK, he⟩ | ⟨hK, h2, hh, he⟩ | ⟨hK, hm, hv, he⟩ |
      ⟨hK, hm, hv, hb, he⟩ | ⟨hK, hm, hv, hb, he⟩ <;>
    rw [he] at hc <;> simp [Prod.ext_iff] at hc
  · obtain ⟨rfl, rfl⟩ := hc
    exact ⟨hK, hh⟩
  · obtain ⟨rfl, rfl⟩ := hc
    exact ⟨hK, by simp [ssModels, lookupAssoc_insertAssoc]⟩

theorem sm_ok_idem (env : Collaborators) (w : World) (p : Nat) (h : Handle) (w1 : World)
    (hc : semistable_model env w p = (Except.ok h, w1)) :
    semistable_model env w1 p = (Except.ok h, w1) := by
  obtain ⟨hK, hh⟩ := sm_ok_inv env w p h w1 hc
  exact sm_hit env w1 p h hK hh

theorem sm_mono (env : Collaborators) (w : World) (p q : Nat) (h : Handle)
    (hq : cacheLookup w q = some h) :
    cacheLookup (semistable_model env w p).2 q = some h := by
  rcases sm_cases env w p with ⟨hK, he⟩ | ⟨hK, h2, hh, he⟩ | ⟨hK, hm, hv, he⟩ |
      ⟨hK, hm, hv, hb, he⟩ | ⟨hK, hm, hv, hb, he⟩ <;> rw [he]
  · exact hq
  · exact hq
  · exact hq
  · exact hq
  · show lookupAssoc (insertAssoc (ssModels w.curve) p w.nextHandleId) q = some h
    rw [lookupAssoc_insertAssoc]
    have hq2 : lookupAssoc (ssModels w.curve) q = some h := hq
    have hpq : p ≠ q := by
      intro hpq
      rw [hpq, hq2] at hm
      exact Option.noConfusion hm
    rw [if_neg hpq]
    exact hq

theorem sm_preserves_base (env : Collaborators) (w : World) (p : Nat) :
    ((semistable_model env w p).2).curve.constant_base_field
      = w.curve.constant_base_field := by
  rcases sm_cases env w p with ⟨hK, he⟩ | ⟨hK, h2, hh, he⟩ | ⟨hK, hm, hv, he⟩ |
      ⟨hK, hm, hv, hb, he⟩ | ⟨hK, hm, hv, hb, he⟩ <;> rw [he]

theorem sm_step_count (env : Collaborators) (w : World) (p : Nat)
    (hK : w.curve.constant_base_field = QQ)
    (hv : env.valuationOk p = true) (hb : env.builderOk p = true) :
    keysFinset (semistable_model env w p).2 = insert p (keysFinset w) ∧
    builderCallCount (semistable_model env w p).2 + (keysFinset w).card
      = builderCallCount w + (keysFinset (semistable_model env w p).2).card := by
  cases hh : lookupAssoc (ssModels w.curve) p with
  | some h =>
    rw [sm_hit env w p h hK hh]
    have hp : p ∈ (ssModels w.curve).map Prod.fst := by
      by_contra hcon
      rw [← lookupAssoc_none_iff] at hcon
      rw [hcon] at hh
      exact Option.noConfusion hh
    have hp2 : p ∈ keysFinset w := List.mem_toFinset.mpr hp
    exact ⟨(Finset.insert_eq_self.mpr hp2).symm, rfl⟩
  | none =>
    rw [sm_miss_ok env w p hK hh hv hb]
    have hp : p ∉ (ssModels w.curve).map Prod.fst := (lookupAssoc_none_iff _ _).mp hh
    have hp2 : p ∉ keysFinset w := fun hc => hp (List.mem_toFinset.mp hc)
    have hkeys : keysFinset
        (⟨⟨w.curve.constant_base_field,
           some (insertAssoc (ssModels w.curve) p w.nextHandleId)⟩,
          w.nextHandleId + 1,
          w.log ++ [Event.valuationCall p, Event.builderCall p]⟩ : World)
        = insert p (keysFinset w) := by
      show ((insertAssoc (ssModels w.curve) p w.nextHandleId).map Prod.fst).toFinset
        = insert p (keysFinset w)
      rw [keys_insertAssoc]
      rfl
    refine ⟨hkeys, ?_⟩
    rw [hkeys, Finset.card_insert_of_not_mem hp2]
    have hcount : builderCallCount
        (⟨⟨w.curve.constant_base_field,
           some (insertAssoc (ssModels w.curve) p w.nextHandleId)⟩,
          w.nextHandleId + 1,
          w.log ++ [Event.valuationCall p, Event.builderCall p]⟩ : World)
        = builderCallCount w + 1 := by
      show ((w.log ++ [Event.valuationCall p, Event.builderCall p]).filter
        Event.isBuilderCall).length = builderCallCount w + 1
      rw [List.filter_append, List.length_append]
      rfl
    rw [hcount]
    omega

theorem runCalls_spec (env : Collaborators) (hv : ∀ q, env.valuationOk q = true)
    (hb : ∀ q, env.builderOk q = true) :
    ∀ (ps : List Nat) (w : World), w.curve.constant_base_field = QQ →
      (runCalls env w ps).curve.constant_base_field = QQ ∧
      keysFinset (runCalls env w ps) = keysFinset w ∪ ps.toFinset ∧
      builderCallCount (runCalls env w ps) + (keysFinset w).card
        = builderCallCount w + (keysFinset (runCalls env w ps)).card := by
  intro ps
  induction ps with
  | nil =>
    intro w hK
    exact ⟨hK, by simp [runCalls], rfl⟩
  | cons p ps ih =>
    intro w hK
    have hstep := sm_step_count env w p hK (hv p) (hb p)
    have hbase : ((semistable_model env w p).2).curve.constant_base_field = QQ := by
      rw [sm_preserves_base]
      exact hK
    obtain ⟨ih1, ih2, ih3⟩ := ih (semistable_model env w p).2 hbase
    have hrun : runCalls env w (p :: ps) = runCalls env (semistable_model env w p).2 ps := rfl
    refine ⟨by rw [hrun]; exact ih1, ?_, ?_⟩
    · rw [hrun, ih2, hstep.1, List.toFinset_cons]
      simp [Finset.insert_union, Finset.union_insert]
    · rw [hrun]
      have e1 := hstep.2
      omega

/-- C1: for a curve over the rationals, calling `semistable_model` twice at
the same key returns the identical handle object both times and leaves the
state unchanged on the second call, and over any sequence of such calls the
`SemistableModel` builder collaborator is invoked exactly once per distinct
key. -/
theorem c1_memoized_single_build (env : Collaborators)
    (hv : ∀ q, env.valuationOk q = true) (hb : ∀ q, env.builderOk q = true) :
    (∀ (w : World) (p : Nat) (h : Handle) (w1 : World),
        semistable_model env w p = (Except.ok h, w1) →
        semistable_model env w1 p = (Except.ok h, w1))
    ∧ (∀ (n : Nat) (ps : List Nat),
        builderCallCount (runCalls env (freshWorld n) ps) = ps.toFinset.card) := by
  refine ⟨fun w p h w1 hc => sm_ok_idem env w p h w1 hc, fun n ps => ?_⟩
  obtain ⟨-, h2, h3⟩ := runCalls_spec env hv hb ps (freshWorld n) rfl
  have hk0 : keysFinset (freshWorld n) = ∅ := rfl
  rw [hk0, Finset.empty_union] at h2
  rw [hk0] at h3
  have hb0 : builderCallCount (freshWorld n) = 0 := rfl
  rw [hb0, Finset.card_empty, h2] at h3
  omega

/-- Witness for C1 at the always-succeeding collaborators. -/
theorem c1_memoized_single_build_witness :
    semistable_model envAll ((semistable_model envAll (freshWorld 0) 7).2) 7
      = (Except.ok 0, (semistable_model envAll (freshWorld 0) 7).2)
    ∧ builderCallCount (runCalls envAll (freshWorld 0) [7, 7, 5]) = 2 := by
  have h := c1_memoized_single_build envAll (fun _ => rfl) (fun _ => rfl)
  refine ⟨h.1 (freshWorld 0) 7 0 ((semistable_model envAll (freshWorld 0) 7).2) rfl, ?_⟩
  rw [h.2 0 [7, 7, 5]]
  decide

/-- C2: for a curve whose constant base field is not the `QQ` singleton,
`semistable_model` raises the unsupported-base-field error and returns the
state entirely unchanged: the cache attribute is never touched. -/
theorem c2_non_rational_base_rejected (env : Collaborators) (w : World) (p : Nat)
    (hK : w.curve.constant_base_field ≠ QQ) :
    semistable_model env w p =
      (Except.error (Err.notImplemented "Semistable reduction is only implemented over Q"), w) :=
  sm_notQQ env w p hK

/-- Witness for C2 at a genuinely non-rational base field. -/
theorem c2_non_rational_base_rejected_witness :
    semistable_model envAll (⟨⟨kField, none⟩, 0, []⟩ : World) 7 =
      (Except.error (Err.notImplemented "Semistable reduction is only implemented over Q"),
       (⟨⟨kField, none⟩, 0, []⟩ : World)) :=
  c2_non_rational_base_rejected envAll ⟨⟨kField, none⟩, 0, []⟩ 7 (by decide)

/-- C3: `conductor_exponent p` returns exactly the conductor exponent of the
handle returned by `semistable_model p`, and a repeated call re-queries the
cached handle without any further model construction (state unchanged). -/
theorem c3_conductor_delegates (env : Collaborators) (w : World) (p : Nat)
    (h : Handle) (w1 : World)
    (hc : semistable_model env w p = (Except.ok h, w1)) :
    conductor_exponent env w p = (Except.ok (env.conductorExp h), w1)
    ∧ conductor_exponent env w1 p = (Except.ok (env.conductorExp h), w1) := by
  have hidem := sm_ok_idem env w p h w1 hc
  constructor
  · simp [conductor_exponent, hc]
  · simp [conductor_exponent, hidem]

/-- Witness for C3 at a fresh curve over the rationals and the key 7. -/
theorem c3_conductor_delegates_witness :
    conductor_exponent envAll (freshWorld 0) 7
      = (Except.ok 0, (semistable_model envAll (freshWorld 0) 7).2)
    ∧ conductor_exponent envAll ((semistable_model envAll (freshWorld 0) 7).2) 7
      = (Except.ok 0, (semistable_model envAll (freshWorld 0) 7).2) :=
  c3_conductor_delegates envAll (freshWorld 0) 7 0
    ((semistable_model envAll (freshWorld 0) 7).2) rfl

/-- C4: on a cache miss over the rationals, `semistable_model` first invokes
the valuation collaborator, then the model builder on the fresh valuation,
stores the freshly built handle under `p` (creating the mapping if it was
absent) and returns exactly that stored handle. -/
theorem c4_miss_builds_and_stores (env : Collaborators) (w : World) (p : Nat)
    (hK : w.curve.constant_base_field = QQ)
    (hmiss : cacheLookup w p = none)
    (hv : env.valuationOk p = true) (hb : env.builderOk p = true) :
    semistable_model env w p =
      (Except.ok w.nextHandleId,
        ⟨⟨w.curve.constant_base_field,
          some (insertAssoc (ssModels w.curve) p w.nextHandleId)⟩,
         w.nextHandleId + 1,
         w.log ++ [Event.valuationCall p, Event.builderCall p]⟩)
    ∧ cacheLookup (semistable_model env w p).2 p = some w.nextHandleId := by
  have he := sm_miss_ok env w p hK hmiss hv hb
  refine ⟨he, ?_⟩
  rw [he]
  show lookupAssoc (insertAssoc (ssModels w.curve) p w.nextHandleId) p
    = some w.nextHandleId
  rw [lookupAssoc_insertAssoc, if_pos rfl]

/-- Witness for C4 at a fresh curve over the rationals and the key 7. -/
theorem c4_miss_builds_and_stores_witness :
    semistable_model envAll (freshWorld 0) 7 =
      (Except.ok 0, ⟨⟨QQ, some [(7, 0)]⟩, 1,
        [Event.valuationCall 7, Event.builderCall 7]⟩)
    ∧ cacheLookup (semistable_model envAll (freshWorld 0) 7).2 7 = some 0 :=
  c4_miss_builds_and_stores envAll (freshWorld 0) 7 rfl rfl rfl rfl

/-- C5: on a cache hit over the rationals, `semistable_model` returns the
stored handle and the state is entirely unchanged: no collaborator is
invoked (the log is untouched) and no field of the curve is modified. -/
theorem c5_hit_no_side_effects (env : Collaborators) (w : World) (p : Nat) (h : Handle)
    (hK : w.curve.constant_base_field = QQ)
    (hh : cacheLookup w p = some h) :
    semistable_model env w p = (Except.ok h, w) :=
  sm_hit env w p h hK hh

/-- Witness for C5 at a curve whose cache already holds the key 7. -/
theorem c5_hit_no_side_effects_witness :
    semistable_model envAll (⟨⟨QQ, some [(7, 5)]⟩, 9, []⟩ : World) 7 =
      (Except.ok 5, (⟨⟨QQ, some [(7, 5)]⟩, 9, []⟩ : World)) :=
  c5_hit_no_side_effects envAll ⟨⟨QQ, some [(7, 5)]⟩, 9, []⟩ 7 5 rfl rfl

/-- C6: successful calls at two different keys produce two independent cache
entries: the second call leaves the entry for the first key intact, both
handles stay retrievable, and a later call at the first key still returns
the handle of the first call with no state change. -/
theorem c6_independent_entries (env : Collaborators) (w : World) (p1 p2 : Nat)
    (h1 h2 : Handle) (w1 w2 : World) (_hne : p1 ≠ p2)
    (hc1 : semistable_model env w p1 = (Except.ok h1, w1))
    (hc2 : semistable_model env w1 p2 = (Except.ok h2, w2)) :
    cacheLookup w2 p1 = some h1 ∧ cacheLookup w2 p2 = some h2 ∧
    semistable_model env w2 p1 = (Except.ok h1, w2) := by
  have hw1 := sm_ok_inv env w p1 h1 w1 hc1
  have hl1 : cacheLookup w1 p1 = some h1 := hw1.2
  have hl2 : cacheLookup w2 p1 = some h1 := by
    have hm := sm_mono env w1 p2 p1 h1 hl1
    rw [hc2] at hm
    exact hm
  have hw2 := sm_ok_inv env w1 p2 h2 w2 hc2
  exact ⟨hl2, hw2.2, sm_hit env w2 p1 h1 hw2.1 hl2⟩

/-- Witness for C6 at the keys 7 and 5 on a fresh curve over the rationals. -/
theorem c6_independent_entries_witness :
    cacheLookup (⟨⟨QQ, some [(7, 0), (5, 1)]⟩, 2,
        [Event.valuationCall 7, Event.builderCall 7,
         Event.valuationCall 5, Event.builderCall 5]⟩ : World) 7 = some 0
    ∧ cacheLookup (⟨⟨QQ, some [(7, 0), (5, 1)]⟩, 2,
        [Event.valuationCall 7, Event.builderCall 7,
         Event.valuationCall 5, Event.builderCall 5]⟩ : World) 5 = some 1
    ∧ semistable_model envAll (⟨⟨QQ, some [(7, 0), (5, 1)]⟩, 2,
        [Event.valuationCall 7, Event.builderCall 7,
         Event.valuationCall 5, Event.builderCall 5]⟩ : World) 7 =
      (Except.ok 0, (⟨⟨QQ, some [(7, 0), (5, 1)]⟩, 2,
        [Event.valuationCall 7, Event.builderCall 7,
         Event.valuationCall 5, Event.builderCall 5]⟩ : World)) :=
  c6_independent_entries envAll (freshWorld 0) 7 5 0 1
    ⟨⟨QQ, some [(7, 0)]⟩, 1, [Event.valuationCall 7, Event.builderCall 7]⟩
    ⟨⟨QQ, some [(7, 0), (5, 1)]⟩, 2,
      [Event.valuationCall 7, Event.builderCall 7,
       Event.valuationCall 5, Event.builderCall 5]⟩
    (by decide) rfl rfl

/-- C7: `reduction_type` raises the not-implemented error unconditionally
and leaves the state (including the cache mapping) unchanged, for every
prime and every prior state. -/
theorem c7_reduction_type_not_implemented (w : World) (p : Nat) :
    reduction_type w p =
      (Except.error
        (Err.notImplemented "Reduction type for general curves is not defined."), w) :=
  rfl

/-- C8: the cache only grows: any (key, handle) binding present before a
call to `semistable_model`, `conductor_exponent` or `reduction_type` is
still present, bound to the same handle, after the call. -/
theorem c8_cache_monotone (env : Collaborators) (w : World) (p q : Nat) (h : Handle)
    (hq : cacheLookup w q = some h) :
    cacheLookup (semistable_model env w p).2 q = some h
    ∧ cacheLookup (conductor_exponent env w p).2 q = some h
    ∧ cacheLookup (reduction_type w p).2 q = some h := by
  have h1 := sm_mono env w p q h hq
  have hce : (conductor_exponent env w p).2 = (semistable_model env w p).2 := by
    rcases hsm : semistable_model env w p with ⟨r, w1⟩
    cases r <;> simp [conductor_exponent, hsm]
  exact ⟨h1, by rw [hce]; exact h1, hq⟩

/-- Witness for C8: the binding 3 to 5 survives each of the three calls. -/
theorem c8_cache_monotone_witness :
    cacheLookup (semistable_model envAll (⟨⟨QQ, some [(3, 5)]⟩, 6, []⟩ : World) 7).2 3 = some 5
    ∧ cacheLookup (conductor_exponent envAll (⟨⟨QQ, some [(3, 5)]⟩, 6, []⟩ : World) 7).2 3 = some 5
    ∧ cacheLookup (reduction_type (⟨⟨QQ, some [(3, 5)]⟩, 6, []⟩ : World) 7).2 3 = some 5 :=
  c8_cache_monotone envAll ⟨⟨QQ, some [(3, 5)]⟩, 6, []⟩ 7 3 5 rfl

/-- C9: if on a cache miss the valuation constructor or the model builder
raises, `semistable_model` propagates a collaborator error and the curve
(its base field and its cache attribute, even when absent) is unchanged. -/
theorem c9_collaborator_error_atomic (env : Collaborators) (w : World) (p : Nat)
    (hK : w.curve.constant_base_field = QQ)
    (hmiss : cacheLookup w p = none)
    (hfail : env.valuationOk p = false ∨ env.builderOk p = false) :
    ((semistable_model env w p).2).curve = w.curve
    ∧ ∃ msg, (semistable_model env w p).1 = Except.error (Err.collaboratorError msg) := by
  cases hv : env.valuationOk p with
  | false =>
    rw [sm_miss_valFail env w p hK hmiss hv]
    exact ⟨rfl, "valuation", rfl⟩
  | true =>
    cases hb : env.builderOk p with
    | false =>
      rw [sm_miss_buildFail env w p hK hmiss hv hb]
      exact ⟨rfl, "SemistableModel", rfl⟩
    | true =>
      rcases hfail with hf | hf
      · rw [hv] at hf
        exact Bool.noConfusion hf
      · rw [hb] at hf
        exact Bool.noConfusion hf

/-- Witness for C9 with a failing valuation collaborator. -/
theorem c9_collaborator_error_atomic_witness :
    ((semistable_model envValFail (freshWorld 0) 7).2).curve = (freshWorld 0).curve
    ∧ ∃ msg, (semistable_model envValFail (freshWorld 0) 7).1
        = Except.error (Err.collaboratorError msg) :=
  c9_collaborator_error_atomic envValFail (freshWorld 0) 7 rfl rfl (Or.inl rfl)

/-- C10: the base-field guard tests object identity with the `QQ` singleton:
a field mathematically equal to the rationals but a distinct object is
rejected with the not-implemented error, and that error is raised exactly
when the constant base field is not the identical singleton. -/
theorem c10_guard_is_identity (env : Collaborators) (w : World) (p : Nat) :
    (w.curve.constant_base_field.mathValue = QQ.mathValue →
       w.curve.constant_base_field ≠ QQ →
       semistable_model env w p =
         (Except.error
           (Err.notImplemented "Semistable reduction is only implemented over Q"), w))
    ∧ ((semistable_model env w p).1
         = Except.error (Err.notImplemented "Semistable reduction is only implemented over Q")
       ↔ w.curve.constant_base_field ≠ QQ) := by
  refine ⟨fun _ hne => sm_notQQ env w p hne, ?_, fun hne => by rw [sm_notQQ env w p hne]⟩
  intro herr hK
  rcases sm_cases env w p with ⟨hK2, he⟩ | ⟨hK2, h2, hh, he⟩ | ⟨hK2, hm, hv, he⟩ |
      ⟨hK2, hm, hv, hb, he⟩ | ⟨hK2, hm, hv, hb, he⟩ <;> rw [he] at herr <;> simp at herr
  exact hK2 hK

/-- Witness for C10 at a field mathematically equal to, but not identical
to, the rationals. -/
theorem c10_guard_is_identity_witness :
    semistable_model envAll (⟨⟨qqClone, none⟩, 0, []⟩ : World) 7 =
      (Except.error (Err.notImplemented "Semistable reduction is only implemented over Q"),
       (⟨⟨qqClone, none⟩, 0, []⟩ : World)) :=
  (c10_guard_is_identity envAll ⟨⟨qqClone, none⟩, 0, []⟩ 7).1 rfl (by decide)

example : semistable_model envAll (freshWorld 0) 7 =
    (Except.ok 0, ⟨⟨QQ, some [(7, 0)]⟩, 1, [Event.valuationCall 7, Event.builderCall 7]⟩) := rfl

example : semistable_model envAll ⟨⟨QQ, some [(7, 0)]⟩, 1,
      [Event.valuationCall 7, Event.builderCall 7]⟩ 7 =
    (Except.ok 0, ⟨⟨QQ, some [(7, 0)]⟩, 1, [Event.valuationCall 7, Event.builderCall 7]⟩) := rfl

example : builderCallCount (runCalls envAll (freshWorld 0) [7, 7, 5, 7]) = 2 := by decide

example : (semistable_model envAll ⟨⟨kField, none⟩, 0, []⟩ 7).1 =
    Except.error (Err.notImplemented "Semistable reduction is only implemented over Q") := rfl

end MCLF
